import Mathlib

/-!
Verification development for the MarlOS decentralized job-auction and
fault-tolerant execution core.

The repository ships the specification of the core (trust ledger, bid
scoring, coordinator election, auction engine, checkpoint store) together
with a React dashboard. The dashboard hooks (useWebSocket.js,
useMultiAgentWebSocket.js) are embedded here directly from their
JavaScript source. The Python core (agent/executor/checkpoint.py, the
auction engine, the trust ledger) is referenced by the documentation but
its source is not part of this tree, so those components are modelled
from the specification text, as noted on each definition.
-/

/-! ## Trust Ledger (spec section 4.1) -/

/-- Modelled from the spec: the event kinds named by section 4.1 of the
specification for the trust ledger, whose implementation
(agent economy/trust code) is not in this tree. -/
inductive EventKind where
  | success
  | late_success
  | failure
  | timeout
  | malicious
deriving DecidableEq, Repr

abbrev Peer := Nat

abbrev JobId := Nat

/-- Modelled from the spec: one entry of the ordered event log of a
TrustRecord (event kind, magnitude, timestamp, related job id). -/
structure TrustEvent where
  kind : EventKind
  magnitude : ℚ
  timestamp : Nat
  job_id : JobId
deriving DecidableEq, Repr

/-- Modelled from the spec: per-peer reputation state (data model
section 3): trust score in [0,1], ordered event log, quarantine-until
timestamp (absent if not quarantined). -/
structure TrustRecord where
  score : ℚ
  events : List TrustEvent
  quarantine_until : Option Nat
deriving DecidableEq, Repr

/-- Modelled from the spec: initial trust value for an unknown peer. -/
def initialScore : ℚ := 1/2

/-- Modelled from the spec: quarantine trigger threshold (the fixed
threshold, e.g. 0.2, named in section 4.1 and matching the dashboard's
Trust.jsx which labels scores below 0.2 as Quarantined). -/
def trustThreshold : ℚ := 1/5

/-- Modelled from the spec: fixed quarantine cooldown duration. -/
def cooldownDuration : Nat := 300

/-- Modelled from the spec: per-kind score delta, positive for
success/late-success, negative for failure/timeout/malicious, malicious
carrying a larger negative magnitude than ordinary failures. -/
def delta : EventKind → ℚ
  | .success => 1/20
  | .late_success => 1/50
  | .failure => -(1/10)
  | .timeout => -(3/20)
  | .malicious => -(3/10)

/-- Clamp a rational into the unit interval. -/
def clamp01 (x : ℚ) : ℚ := max 0 (min 1 x)

/-- The local peer's trust ledger: one TrustRecord per known remote peer. -/
abbrev TrustLedger := List (Peer × TrustRecord)

/-- Look up the TrustRecord stored for a peer, if any. -/
def lookupRecord (l : TrustLedger) (p : Peer) : Option TrustRecord :=
  (l.find? (fun e => e.1 == p)).map (·.2)

/-- Modelled from the spec: current_score returns the latest score,
default 0.5 for unknown peers; total, never fails. -/
def current_score (l : TrustLedger) (p : Peer) : ℚ :=
  match lookupRecord l p with
  | some r => r.score
  | none => initialScore

/-- Modelled from the spec: is_quarantined returns true while
now < quarantine_until; unknown peers are never quarantined. -/
def is_quarantined (l : TrustLedger) (p : Peer) (now : Nat) : Bool :=
  match lookupRecord l p with
  | some r =>
    match r.quarantine_until with
    | some u => now < u
    | none => false
  | none => false

/-- Modelled from the spec: record_event appends an event and recomputes
the score as clamp(old + delta kind, 0, 1); whenever the new score drops
below the threshold, quarantine_until is set to now + cooldown. Total:
an unknown peer gets a fresh record rather than being rejected. -/
def record_event (l : TrustLedger) (p : Peer) (k : EventKind) (j : JobId)
    (now : Nat) : TrustLedger :=
  let old := (lookupRecord l p).getD
    { score := initialScore, events := [], quarantine_until := none }
  let ns := clamp01 (old.score + delta k)
  let q := if ns < trustThreshold then some (now + cooldownDuration)
           else old.quarantine_until
  (p, { score := ns,
        events := old.events ++ [⟨k, delta k, now, j⟩],
        quarantine_until := q }) :: l.filter (fun e => e.1 ≠ p)

/-! ## Bids and winner selection (spec sections 3 and 4.4) -/

/-- Modelled from the spec: a Bid carries job id, bidding peer identity,
numeric score, stake amount and submission timestamp (the signature is
abstracted away: only authenticated bids reach the engine). -/
structure Bid where
  job_id : JobId
  peer : Peer
  score : ℚ
  stake_amount : ℚ
  timestamp : Nat
deriving DecidableEq, Repr

/-- Modelled from the spec: strict preference between bids used by the
coordinator at the deadline — higher score wins, exact score ties break
to the lowest peer-identity value. -/
def betterBid (b w : Bid) : Bool :=
  w.score < b.score || (b.score == w.score && b.peer < w.peer)

/-- One fold step of winner selection. -/
def pickBid (acc : Option Bid) (b : Bid) : Option Bid :=
  match acc with
  | none => some b
  | some w => if betterBid b w then some b else some w

/-- Modelled from the spec: select the winning bid — highest score,
ties broken deterministically by lowest peer identity. -/
def selectWinner (bids : List Bid) : Option Bid :=
  bids.foldl pickBid none

/-- Dominance: w beats or ties b under the spec's selection rule. -/
def DomBid (w b : Bid) : Prop :=
  b.score ≤ w.score ∧ (b.score = w.score → w.peer ≤ b.peer)

/-- Modelled from the spec: qualifying bids at the deadline — bids from
quarantined peers are rejected pre-scoring, and bids below the required
minimum stake do not qualify. -/
def qualifyingBids (l : TrustLedger) (now : Nat) (minStake : ℚ)
    (bids : List Bid) : List Bid :=
  bids.filter (fun b => !is_quarantined l b.peer now && minStake ≤ b.stake_amount)

/-- Modelled from the spec: the AWARD target of an auction — the peer of
the winning qualifying bid, if any. -/
def awardTarget (l : TrustLedger) (now : Nat) (minStake : ℚ)
    (bids : List Bid) : Option Peer :=
  (selectWinner (qualifyingBids l now minStake bids)).map (·.peer)

/-! ## Coordinator election (spec section 4.3) -/

/-- Modelled from the spec: hash of a peer identity together with the
epoch number (a fixed mixing function standing for the implementation's
hash; any pure function works for the election contract). -/
def hashPE (epoch p : Nat) : Nat :=
  (2654435761 * p + 40503 * epoch + 2166136261) % 4294967296

/-- Modelled from the spec: strict preference between candidate
coordinators for an epoch — minimal hash value, ties broken by the
lowest peer identity. -/
def betterPeer (epoch p q : Peer) : Bool :=
  hashPE epoch p < hashPE epoch q ||
    (hashPE epoch p == hashPE epoch q && p < q)

/-- The preferred of two candidate coordinators. -/
def minPeer (epoch : Nat) (p q : Peer) : Peer :=
  if betterPeer epoch p q then p else q

/-- One fold step of the election reduction. -/
def pickPeer (epoch : Nat) (acc : Option Peer) (p : Peer) : Option Peer :=
  match acc with
  | none => some p
  | some q => some (minPeer epoch q p)

/-- Modelled from the spec: elect(epoch, live_peers) — a pure,
order-independent reduction over the peer-identity set selecting the
peer whose identity hashed together with the epoch yields the minimum
value. Returns none only for an empty live set. -/
def elect (epoch : Nat) (live : List Peer) : Option Peer :=
  live.foldl (pickPeer epoch) none

/-! ## Checkpoint store and resumable execution (spec sections 4.5, 6) -/

/-- Modelled from the spec: the persisted Checkpoint record layout of
section 6 — job id, attempt number, progress fraction, completed step
names, current step, state snapshot, intermediate results, input data,
creation timestamp (agent/executor/checkpoint.py is not in this tree). -/
structure Checkpoint where
  job_id : JobId
  attempt : Nat
  progress : ℚ
  completed_steps : List String
  current_step : String
  state : List (String × String)
  intermediate_results : List (String × String)
  input_data : List (String × String)
  created_at : Nat
deriving DecidableEq, Repr

/-- The checkpoint store: the latest record per job id. -/
abbrev CheckpointStore := List (JobId × Checkpoint)

/-- Modelled from the spec: save overwrites in place the single record
kept for the checkpoint's job id. -/
def save_checkpoint (st : CheckpointStore) (c : Checkpoint) : CheckpointStore :=
  (c.job_id, c) :: st.filter (fun e => e.1 ≠ c.job_id)

/-- Modelled from the spec: load the latest checkpoint for a job id. -/
def load_checkpoint (st : CheckpointStore) (j : JobId) : Option Checkpoint :=
  (st.find? (fun e => e.1 == j)).map (·.2)

/-- The progress durably recorded for a job id (0 when no checkpoint). -/
def progressOf (st : CheckpointStore) (j : JobId) : ℚ :=
  match load_checkpoint st j with
  | some c => c.progress
  | none => 0

/-- Modelled from the spec: a fresh attempt-1 checkpoint context for a
job never checkpointed before. -/
def freshCheckpoint (j : JobId) (input : List (String × String))
    (now : Nat) : Checkpoint :=
  { job_id := j, attempt := 1, progress := 0, completed_steps := [],
    current_step := "", state := [], intermediate_results := [],
    input_data := input, created_at := now }

/-- Modelled from the spec: load_or_create — resume from the stored
checkpoint with the attempt counter incremented, or start fresh at
attempt 1. -/
def load_or_create (st : CheckpointStore) (j : JobId)
    (input : List (String × String)) (now : Nat) : Checkpoint :=
  match load_checkpoint st j with
  | some c => { c with attempt := c.attempt + 1 }
  | none => freshCheckpoint j input now

/-- Modelled from the spec: the observable moves of one execution
attempt for job j. Task code advances its context by completing steps
(progress deltas are non-negative fractions of work done) and persists
the current context via checkpoint_if_needed. -/
inductive RunStep (j : JobId) :
    CheckpointStore × Checkpoint → CheckpointStore × Checkpoint → Prop where
  | advance (st : CheckpointStore) (ctx : Checkpoint) (d : ℚ) (hd : 0 ≤ d)
      (name : String) :
      RunStep j (st, ctx)
        (st, { ctx with progress := ctx.progress + d,
                        completed_steps := ctx.completed_steps ++ [name],
                        current_step := name })
  | persist (st : CheckpointStore) (ctx : Checkpoint) (h : ctx.job_id = j) :
      RunStep j (st, ctx) (save_checkpoint st ctx, ctx)

/-! ## Auction engine message-delivery model (spec sections 4.4, 5, 8) -/

/-- Modelled from the spec: the body of a signed AWARD message — job id,
epoch, awarded winner, and the issuing coordinator identity (the
signature makes the coordinator field attributable). -/
structure AwardMsg where
  job_id : JobId
  epoch : Nat
  winner : Peer
  coordinator : Peer
deriving DecidableEq, Repr

/-- Modelled from the spec: the phases of the auction state machine of
section 4.4. -/
inductive Phase where
  | announced
  | collecting
  | electing
  | awarded (winner : Peer)
  | expired
deriving DecidableEq, Repr

/-- An auction is open until awarded or expired. -/
def Phase.isOpen : Phase → Bool
  | .awarded _ => false
  | .expired => false
  | _ => true

/-- Modelled from the spec: an Auction record, keyed by job id, with its
current phase. -/
structure Auction where
  job_id : JobId
  phase : Phase
deriving DecidableEq, Repr

/-- Modelled from the spec: a swarm snapshot for one auction epoch — the
epoch, the live-peer-set snapshot, the (closed) bid sets per job, the
auction records, the AWARD messages in flight, and which peer holds an
active Awarded state for which job. -/
structure SwarmState where
  epoch : Nat
  live : List Peer
  bids : JobId → List Bid
  auctions : List Auction
  inflight : List AwardMsg
  holding : Peer → JobId → Bool

/-- The job ids of the currently open auctions. -/
def openJobs (s : SwarmState) : List JobId :=
  (s.auctions.filter (fun a => a.phase.isOpen)).map (·.job_id)

/-- Modelled from the spec: the initial swarm state for an epoch — no
auctions yet, no messages in flight, no peer holding an award. -/
def initSwarm (epoch : Nat) (live : List Peer) (bids : JobId → List Bid) :
    SwarmState :=
  { epoch := epoch, live := live, bids := bids, auctions := [],
    inflight := [], holding := fun _ _ => false }

/-- Modelled from the spec: the transitions of the auction engine under
an unordered, duplicating message channel. A job is announced only when
no auction for it is open; an open auction may advance phase or close;
the elected coordinator issues an AWARD naming the winning bid; a stale
coordinator (partition healed late) may issue an arbitrary AWARD; any
in-flight message may be duplicated or delivered at any time, and a
delivered AWARD is accepted only when its coordinator field matches what
the receiver's own election function computes for the epoch. -/
inductive SwarmStep : SwarmState → SwarmState → Prop where
  | announce (s : SwarmState) (j : JobId) (h : j ∉ openJobs s) :
      SwarmStep s { s with auctions := ⟨j, .announced⟩ :: s.auctions }
  | advancePhase (s : SwarmState) (l₁ l₂ : List Auction) (a : Auction)
      (ph : Phase) (hs : s.auctions = l₁ ++ a :: l₂)
      (hph : ph.isOpen = true → a.phase.isOpen = true) :
      SwarmStep s { s with auctions := l₁ ++ ⟨a.job_id, ph⟩ :: l₂ }
  | issueAward (s : SwarmState) (j : JobId) (w : Bid) (c : Peer)
      (hc : elect s.epoch s.live = some c)
      (hw : selectWinner (s.bids j) = some w) :
      SwarmStep s { s with inflight := ⟨j, s.epoch, w.peer, c⟩ :: s.inflight }
  | staleIssue (s : SwarmState) (j : JobId) (e : Nat) (w c : Peer)
      (hc : elect s.epoch s.live ≠ some c) :
      SwarmStep s { s with inflight := ⟨j, e, w, c⟩ :: s.inflight }
  | duplicate (s : SwarmState) (m : AwardMsg) (hm : m ∈ s.inflight) :
      SwarmStep s { s with inflight := m :: s.inflight }
  | deliver (s : SwarmState) (m : AwardMsg) (hm : m ∈ s.inflight)
      (hacc : elect s.epoch s.live = some m.coordinator) :
      SwarmStep s { s with holding := fun p j =>
        if p = m.winner ∧ j = m.job_id then true else s.holding p j }
  | dropMsg (s : SwarmState) (m : AwardMsg) (hm : m ∈ s.inflight)
      (hacc : elect s.epoch s.live ≠ some m.coordinator) :
      SwarmStep s s

/-- Reachability of swarm states from an initial snapshot. -/
def SwarmReach (s₀ s : SwarmState) : Prop :=
  Relation.ReflTransGen SwarmStep s₀ s

/-- The inductive invariant of the message-delivery model: open-auction
job ids are distinct; every in-flight AWARD whose coordinator field
matches the epoch's election names the unique winning bid of its job's
(closed) bid set; and every held award belongs to the unique winning
bid of that job. -/
def SwarmInv (s : SwarmState) : Prop :=
  (openJobs s).Nodup ∧
  (∀ m ∈ s.inflight, elect s.epoch s.live = some m.coordinator →
    ∃ b, selectWinner (s.bids m.job_id) = some b ∧ b.peer = m.winner) ∧
  (∀ p j, s.holding p j = true →
    ∃ b, selectWinner (s.bids j) = some b ∧ b.peer = p)

/-! ## Dashboard WebSocket hook, embedded from
dashboard/src/hooks/useWebSocket.js -/

/-- A JSON value as produced by JSON.parse of a message body. -/
inductive Json where
  | null : Json
  | bool : Bool → Json
  | num : ℚ → Json
  | str : String → Json
  | arr : List Json → Json
  | obj : List (String × Json) → Json

/-- Field access on a parsed JSON value: some value for a present field
of an object, none otherwise (the JavaScript undefined). -/
def Json.getField : Json → String → Option Json
  | .obj fields, k => (fields.find? (fun f => f.1 == k)).map (·.2)
  | _, _ => none

/-- Embedded from useWebSocket.js lines 50-60: the onmessage handler.
The parsed argument is the outcome of JSON.parse on the raw body (none
when parsing threw, which the handler catches and only logs). The stored
agent state is replaced by data.data exactly when data.type is the
string initial_state or state_update; otherwise it is left unchanged. -/
def onmessage (agentState : Option Json) (parsed : Option Json) : Option Json :=
  match parsed with
  | none => agentState
  | some data =>
    match data.getField "type" with
    | some (Json.str t) =>
      if t = "initial_state" || t = "state_update" then data.getField "data"
      else agentState
    | _ => agentState

/-- Embedded from useWebSocket.js line 4: RECONNECT_DELAY = 3000. -/
def RECONNECT_DELAY : ℚ := 3000

/-- Embedded from useWebSocket.js line 5: MAX_RECONNECT_ATTEMPTS = 10. -/
def MAX_RECONNECT_ATTEMPTS : Nat := 10

/-- The hook's reconnect-relevant state: the reconnectAttempts counter,
the connected flag, the isConnecting flag, the error message, and the
delay of the currently scheduled reconnect timeout, if one is pending.
The 1.5-power delays are exact dyadic rationals, so rational arithmetic
reproduces the JavaScript float computation exactly. -/
structure WSState where
  reconnectAttempts : Nat
  connected : Bool
  connecting : Bool
  error : Option String
  scheduledDelay : Option ℚ
deriving DecidableEq, Repr

/-- The hook's state right after a successful onopen (lines 42-48):
counter reset to zero, no error, nothing scheduled. -/
def connectedWSState : WSState :=
  { reconnectAttempts := 0, connected := true, connecting := false,
    error := none, scheduledDelay := none }

/-- Embedded from useWebSocket.js lines 68-87: the onclose handler
increments reconnectAttempts and schedules a reconnect after
min(RECONNECT_DELAY * 1.5^(attempts-1), 30000) milliseconds. -/
def onclose (s : WSState) : WSState :=
  let n := s.reconnectAttempts + 1
  { s with connected := false, connecting := false,
           reconnectAttempts := n,
           scheduledDelay := some (min (RECONNECT_DELAY * (3/2 : ℚ) ^ (n - 1)) 30000) }

/-- Embedded from useWebSocket.js lines 17-47: connect skips when a
connection attempt is in progress, stops with an error once
MAX_RECONNECT_ATTEMPTS is reached, and otherwise starts connecting. -/
def connect (s : WSState) : WSState :=
  if s.connecting then s
  else if MAX_RECONNECT_ATTEMPTS ≤ s.reconnectAttempts then
    { s with
      error := some "Failed to connect after multiple attempts. Please refresh the page.",
      scheduledDelay := none }
  else { s with connecting := true, scheduledDelay := none }

/-- A concrete checkpoint used to instantiate theorems on the scenario
of spec section 8: progress 0.5 persisted before a failure. -/
def sampleCheckpoint : Checkpoint :=
  { job_id := 7, attempt := 1, progress := 1/2,
    completed_steps := ["step1"], current_step := "step2",
    state := [("counter", "42")], intermediate_results := [("step1_result", "ok")],
    input_data := [("dataset", "data.csv")], created_at := 11 }

/-! ## Helper lemmas -/

theorem clamp01_nonneg (x : ℚ) : 0 ≤ clamp01 x := le_max_left 0 _

theorem clamp01_le_one (x : ℚ) : clamp01 x ≤ 1 :=
  max_le (by norm_num) (min_le_left 1 x)

theorem getD_score_eq_current_score (l : TrustLedger) (p : Peer) :
    ((lookupRecord l p).getD
      { score := initialScore, events := [], quarantine_until := none }).score
      = current_score l p := by
  unfold current_score
  cases lookupRecord l p <;> simp

theorem lookupRecord_record_event_self (l : TrustLedger) (p : Peer)
    (k : EventKind) (j : JobId) (now : Nat) :
    lookupRecord (record_event l p k j now) p = some
      { score := clamp01 (current_score l p + delta k),
        events := ((lookupRecord l p).getD
          { score := initialScore, events := [], quarantine_until := none }).events
          ++ [⟨k, delta k, now, j⟩],
        quarantine_until :=
          if clamp01 (current_score l p + delta k) < trustThreshold
          then some (now + cooldownDuration)
          else ((lookupRecord l p).getD
            { score := initialScore, events := [], quarantine_until := none }).quarantine_until } := by
  conv_lhs => rw [record_event]
  rw [lookupRecord]
  simp [List.find?_cons_of_pos, getD_score_eq_current_score]

/-! ## Claim C3 -/

/-- C3: record_event(peer, kind, job_id) appends the event and sets the
new trust score to clamp(old_score + delta(kind), 0, 1), where delta is
positive for success and late-success and negative for failure, timeout
and malicious, the malicious magnitude strictly exceeding the failure
magnitude; hence every resulting score lies in [0,1]. -/
theorem record_event_clamps_and_appends (l : TrustLedger) (p : Peer)
    (k : EventKind) (j : JobId) (now : Nat) :
    (∃ r, lookupRecord (record_event l p k j now) p = some r ∧
      r.events = ((lookupRecord l p).getD
        { score := initialScore, events := [], quarantine_until := none }).events
        ++ [⟨k, delta k, now, j⟩] ∧
      r.score = clamp01 (current_score l p + delta k) ∧
      0 ≤ r.score ∧ r.score ≤ 1) ∧
    (0 < delta .success ∧ 0 < delta .late_success ∧
     delta .failure < 0 ∧ delta .timeout < 0 ∧ delta .malicious < 0 ∧
     |delta .failure| < |delta .malicious|) := by
  refine ⟨⟨_, lookupRecord_record_event_self l p k j now, rfl, rfl,
    clamp01_nonneg _, clamp01_le_one _⟩, ?_⟩
  refine ⟨by norm_num [delta], by norm_num [delta], by norm_num [delta],
    by norm_num [delta], by norm_num [delta], ?_⟩
  norm_num [delta]
  rw [abs_of_pos (by norm_num), abs_of_pos (by norm_num)]
  norm_num

/-! ## Claim C4 -/

/-- C4: an unknown peer (no recorded trust events) gets the neutral
default score 0.5, is not quarantined, and is never rejected outright:
record_event on an unknown peer succeeds and records the event. -/
theorem unknown_peer_open_admission (l : TrustLedger) (p : Peer) (now : Nat)
    (h : lookupRecord l p = none) :
    current_score l p = 1/2 ∧
    is_quarantined l p now = false ∧
    ∀ k j t, ∃ r, lookupRecord (record_event l p k j t) p = some r ∧
      r.events = [⟨k, delta k, t, j⟩] := by
  refine ⟨?_, ?_, ?_⟩
  · rw [current_score, h]; rfl
  · rw [is_quarantined, h]
  · intro k j t
    refine ⟨_, lookupRecord_record_event_self l p k j t, ?_⟩
    rw [h]
    rfl

/-- Witness for C4 at the empty ledger. -/
theorem unknown_peer_open_admission_witness :
    current_score [] 0 = 1/2 ∧
    is_quarantined [] 0 0 = false ∧
    ∀ k j t, ∃ r, lookupRecord (record_event [] 0 k j t) 0 = some r ∧
      r.events = [⟨k, delta k, t, j⟩] :=
  unknown_peer_open_admission [] 0 0 rfl

/-! ## Claim C7 -/

/-- C7: saving a Checkpoint and then loading it for its job id
reproduces the identical record (in particular completed_steps, state
and intermediate_results), and after the save exactly one record for
that job id is present — the record is overwritten in place. -/
theorem checkpoint_roundtrip (st : CheckpointStore) (c : Checkpoint) :
    load_checkpoint (save_checkpoint st c) c.job_id = some c ∧
    (∃ c', load_checkpoint (save_checkpoint st c) c.job_id = some c' ∧
      c'.completed_steps = c.completed_steps ∧
      c'.state = c.state ∧
      c'.intermediate_results = c.intermediate_results) ∧
    (save_checkpoint st c).countP (fun e => e.1 == c.job_id) = 1 := by
  have hload : load_checkpoint (save_checkpoint st c) c.job_id = some c := by
    rw [save_checkpoint, load_checkpoint]
    simp [List.find?_cons_of_pos]
  refine ⟨hload, ⟨c, hload, rfl, rfl, rfl⟩, ?_⟩
  rw [save_checkpoint]
  rw [List.countP_cons_of_pos _ _ (by simp)]
  have : (st.filter (fun e => e.1 ≠ c.job_id)).countP
      (fun e => e.1 == c.job_id) = 0 := by
    rw [List.countP_eq_zero]
    intro e he
    simp only [List.mem_filter, decide_eq_true_eq] at he
    simp [he.2]
  rw [this]

/-! ## Claim C8 -/

theorem load_checkpoint_job_id (st : CheckpointStore) (j : JobId)
    (c : Checkpoint) (hwf : ∀ e ∈ st, e.2.job_id = e.1)
    (h : load_checkpoint st j = some c) : c.job_id = j := by
  rw [load_checkpoint] at h
  cases hf : st.find? (fun e => e.1 == j) with
  | none => rw [hf] at h; simp at h
  | some e =>
    rw [hf] at h
    simp only [Option.map, Option.some.injEq] at h
    have hpred := List.find?_some hf
    simp only [beq_iff_eq] at hpred
    have hmem : e ∈ st := List.mem_of_find?_eq_some hf
    have hkey : e.2.job_id = e.1 := hwf e hmem
    rw [← h, hkey, hpred]

theorem load_or_create_progress (st : CheckpointStore) (j : JobId)
    (input : List (String × String)) (now : Nat) :
    (load_or_create st j input now).progress = progressOf st j := by
  rw [load_or_create, progressOf]
  cases load_checkpoint st j <;> simp [freshCheckpoint]

theorem progressOf_save (st : CheckpointStore) (c : Checkpoint) (j : JobId)
    (h : c.job_id = j) : progressOf (save_checkpoint st c) j = c.progress := by
  subst h
  rw [progressOf, save_checkpoint, load_checkpoint]
  simp [List.find?_cons_of_pos]

theorem runstep_preserves (j : JobId) {x y : CheckpointStore × Checkpoint}
    (h : RunStep j x y)
    (hx : progressOf x.1 j ≤ x.2.progress ∧ x.2.job_id = j) :
    (progressOf y.1 j ≤ y.2.progress ∧ y.2.job_id = j) ∧
      progressOf x.1 j ≤ progressOf y.1 j := by
  cases h with
  | advance st ctx d hd name =>
    refine ⟨⟨?_, hx.2⟩, le_refl _⟩
    calc progressOf st j ≤ ctx.progress := hx.1
      _ ≤ ctx.progress + d := by linarith
  | persist st ctx hj =>
    have hps : progressOf (save_checkpoint st ctx) j = ctx.progress :=
      progressOf_save st ctx j hj
    exact ⟨⟨by rw [hps], hx.2⟩, by rw [hps]; exact hx.1⟩

theorem run_progress_mono (j : JobId) {x y : CheckpointStore × Checkpoint}
    (h : Relation.ReflTransGen (RunStep j) x y)
    (hx : progressOf x.1 j ≤ x.2.progress ∧ x.2.job_id = j) :
    progressOf x.1 j ≤ progressOf y.1 j ∧
      (progressOf y.1 j ≤ y.2.progress ∧ y.2.job_id = j) := by
  induction h with
  | refl => exact ⟨le_refl _, hx⟩
  | tail hab hbc ih =>
    obtain ⟨hmono, hinvb⟩ := ih
    obtain ⟨hinvc, hmono2⟩ := runstep_preserves j hbc hinvb
    exact ⟨le_trans hmono hmono2, hinvc⟩

/-- C8: progress is monotonically non-decreasing across attempts. If a
peer persists a checkpoint at progress p and then fails, the next
winner's load_or_create for that job id returns a checkpoint with
progress p resuming from the recorded current_step with an incremented
attempt number (never restarting at progress 0); and over any execution
run (context advances and checkpoint persists), the progress that
load_or_create would record never decreases. -/
theorem load_or_create_monotone (st stA : CheckpointStore) (cp : Checkpoint)
    (input input' : List (String × String)) (now now' : Nat) (j : JobId)
    (s' : CheckpointStore × Checkpoint)
    (hwf : ∀ e ∈ stA, e.2.job_id = e.1)
    (hrun : Relation.ReflTransGen (RunStep j)
      (stA, load_or_create stA j input now) s') :
    ((load_or_create (save_checkpoint st cp) cp.job_id input now).progress
        = cp.progress ∧
     (load_or_create (save_checkpoint st cp) cp.job_id input now).current_step
        = cp.current_step ∧
     (load_or_create (save_checkpoint st cp) cp.job_id input now).completed_steps
        = cp.completed_steps ∧
     (load_or_create (save_checkpoint st cp) cp.job_id input now).attempt
        = cp.attempt + 1) ∧
    (load_or_create stA j input now).progress
      ≤ (load_or_create s'.1 j input' now').progress := by
  have hload : load_checkpoint (save_checkpoint st cp) cp.job_id = some cp := by
    rw [save_checkpoint, load_checkpoint]
    simp [List.find?_cons_of_pos]
  constructor
  · rw [load_or_create, hload]
    exact ⟨rfl, rfl, rfl, rfl⟩
  · rw [load_or_create_progress stA, load_or_create_progress s'.1]
    have hinit : progressOf stA j ≤ (load_or_create stA j input now).progress ∧
        (load_or_create stA j input now).job_id = j := by
      constructor
      · rw [load_or_create_progress]
      · rw [load_or_create]
        cases hl : load_checkpoint stA j with
        | none => rfl
        | some c => exact load_checkpoint_job_id stA j c hwf hl
    exact (run_progress_mono j hrun hinit).1

/-- Witness for C8: the section-8 scenario with a checkpoint persisted
at progress 0.5 and an empty store for the resuming run. -/
theorem load_or_create_monotone_witness :
    ((load_or_create (save_checkpoint [] sampleCheckpoint)
        sampleCheckpoint.job_id [] 0).progress = sampleCheckpoint.progress ∧
     (load_or_create (save_checkpoint [] sampleCheckpoint)
        sampleCheckpoint.job_id [] 0).current_step = sampleCheckpoint.current_step ∧
     (load_or_create (save_checkpoint [] sampleCheckpoint)
        sampleCheckpoint.job_id [] 0).completed_steps = sampleCheckpoint.completed_steps ∧
     (load_or_create (save_checkpoint [] sampleCheckpoint)
        sampleCheckpoint.job_id [] 0).attempt = sampleCheckpoint.attempt + 1) ∧
    (load_or_create [] 7 [] 0).progress
      ≤ (load_or_create ([], load_or_create [] 7 [] 0).1 7 [] 3).progress :=
  load_or_create_monotone [] [] sampleCheckpoint [] [] 0 3 7
    ([], load_or_create [] 7 [] 0) (by simp) Relation.ReflTransGen.refl

/-! ## Claims C6 and C2 -/

theorem pickBid_isSome (acc : Option Bid) (b : Bid) : (pickBid acc b).isSome := by
  cases acc with
  | none => rfl
  | some w =>
    rw [pickBid]
    split <;> rfl

theorem foldl_pickBid_some (bids : List Bid) :
    ∀ (a : Bid), (bids.foldl pickBid (some a)).isSome := by
  induction bids with
  | nil => intro a; rfl
  | cons b bs ih =>
    intro a
    rw [List.foldl_cons]
    cases hp : pickBid (some a) b with
    | none =>
      have := pickBid_isSome (some a) b
      rw [hp] at this
      exact absurd this (by simp)
    | some v => exact ih v

theorem foldl_pickBid_mem (bids : List Bid) :
    ∀ (acc : Option Bid) (w : Bid), bids.foldl pickBid acc = some w →
      acc = some w ∨ w ∈ bids := by
  induction bids with
  | nil => intro acc w h; exact Or.inl h
  | cons b bs ih =>
    intro acc w h
    rw [List.foldl_cons] at h
    rcases ih (pickBid acc b) w h with h' | h'
    · cases acc with
      | none =>
        rw [pickBid] at h'
        simp only [Option.some.injEq] at h'
        exact Or.inr (by rw [← h']; exact List.mem_cons_self b bs)
      | some a =>
        rw [pickBid] at h'
        split at h'
        · simp only [Option.some.injEq] at h'
          exact Or.inr (by rw [← h']; exact List.mem_cons_self b bs)
        · exact Or.inl h'
    · exact Or.inr (List.mem_cons_of_mem b h')

theorem DomBid.refl (b : Bid) : DomBid b b := ⟨le_refl _, fun _ => le_refl _⟩

theorem DomBid.trans {w v b : Bid} (h1 : DomBid w v) (h2 : DomBid v b) :
    DomBid w b := by
  obtain ⟨hs1, ht1⟩ := h1
  obtain ⟨hs2, ht2⟩ := h2
  refine ⟨le_trans hs2 hs1, fun heq => ?_⟩
  have hv : v.score = w.score := le_antisymm hs1 (heq ▸ hs2)
  have hb : b.score = v.score := by rw [hv, heq]
  exact le_trans (ht1 hv) (ht2 hb)

theorem pickBid_dom (acc : Option Bid) (b w : Bid)
    (h : pickBid acc b = some w) :
    DomBid w b ∧ (∀ a, acc = some a → DomBid w a) := by
  cases acc with
  | none =>
    rw [pickBid] at h
    simp only [Option.some.injEq] at h
    subst h
    exact ⟨DomBid.refl b, by intro a ha; cases ha⟩
  | some a =>
    rw [pickBid] at h
    by_cases hb : betterBid b a = true
    · rw [if_pos hb] at h
      simp only [Option.some.injEq] at h
      subst h
      rw [betterBid, Bool.or_eq_true, Bool.and_eq_true, decide_eq_true_eq,
        decide_eq_true_eq, beq_iff_eq] at hb
      refine ⟨DomBid.refl b, ?_⟩
      intro a' ha'
      obtain rfl : a = a' := by injection ha'
      rcases hb with hlt | ⟨heq, hpeer⟩
      · exact ⟨le_of_lt hlt, fun hc => absurd hc (ne_of_lt hlt)⟩
      · exact ⟨le_of_eq heq.symm, fun _ => le_of_lt hpeer⟩
    · rw [if_neg hb] at h
      simp only [Option.some.injEq] at h
      subst h
      rw [betterBid, Bool.or_eq_true, Bool.and_eq_true, decide_eq_true_eq,
        decide_eq_true_eq, beq_iff_eq] at hb
      push_neg at hb
      obtain ⟨hle, htie⟩ := hb
      refine ⟨⟨hle, htie⟩, ?_⟩
      intro a' ha'
      obtain rfl : a = a' := by injection ha'
      exact DomBid.refl a

theorem foldl_pickBid_dom (bids : List Bid) :
    ∀ (acc : Option Bid) (w : Bid), bids.foldl pickBid acc = some w →
      (∀ b ∈ bids, DomBid w b) ∧ (∀ a, acc = some a → DomBid w a) := by
  induction bids with
  | nil =>
    intro acc w h
    rw [List.foldl_nil] at h
    refine ⟨fun b hb => absurd hb (List.not_mem_nil b), fun a ha => ?_⟩
    rw [h] at ha
    injection ha with h'
    rw [h']
    exact DomBid.refl _
  | cons b bs ih =>
    intro acc w h
    rw [List.foldl_cons] at h
    obtain ⟨hbs, hacc⟩ := ih (pickBid acc b) w h
    cases hv : pickBid acc b with
    | none =>
      have := pickBid_isSome acc b
      rw [hv] at this
      exact absurd this (by simp)
    | some v =>
      have hwv : DomBid w v := hacc v hv
      obtain ⟨hvb, hva⟩ := pickBid_dom acc b v hv
      refine ⟨?_, ?_⟩
      · intro x hx
        rcases List.mem_cons.mp hx with rfl | hx'
        · exact DomBid.trans hwv hvb
        · exact hbs x hx'
      · intro a ha
        exact DomBid.trans hwv (hva a ha)

/-- C6: for every non-empty set of bids, the selected winner is a
received bid whose score is maximal among all bids, and any bid with
exactly the winner's score has a peer identity no smaller than the
winner's (lowest-peer-identity tie-break). -/
theorem selectWinner_max_lowest_peer (bids : List Bid) (h : bids ≠ []) :
    ∃ w, selectWinner bids = some w ∧ w ∈ bids ∧
      ∀ b ∈ bids, b.score ≤ w.score ∧ (b.score = w.score → w.peer ≤ b.peer) := by
  obtain ⟨b, bs, rfl⟩ := List.exists_cons_of_ne_nil h
  have hsome : (selectWinner (b :: bs)).isSome := by
    rw [selectWinner, List.foldl_cons]
    cases hp : pickBid none b with
    | none => cases hp
    | some v => exact foldl_pickBid_some bs v
  obtain ⟨w, hw⟩ := Option.isSome_iff_exists.mp hsome
  refine ⟨w, hw, ?_, ?_⟩
  · rcases foldl_pickBid_mem (b :: bs) none w hw with h' | h'
    · cases h'
    · exact h'
  · intro x hx
    exact (foldl_pickBid_dom (b :: bs) none w hw).1 x hx

/-- Witness for C6: three bids, two tied at the maximal score. -/
theorem selectWinner_max_lowest_peer_witness :
    ∃ w, selectWinner
        [{ job_id := 1, peer := 5, score := 8/10, stake_amount := 1, timestamp := 0 },
         { job_id := 1, peer := 2, score := 9/10, stake_amount := 1, timestamp := 1 },
         { job_id := 1, peer := 4, score := 9/10, stake_amount := 1, timestamp := 2 }] = some w ∧
      w ∈ [{ job_id := 1, peer := 5, score := 8/10, stake_amount := 1, timestamp := 0 },
           { job_id := 1, peer := 2, score := 9/10, stake_amount := 1, timestamp := 1 },
           { job_id := 1, peer := 4, score := 9/10, stake_amount := 1, timestamp := 2 }] ∧
      ∀ b ∈ [({ job_id := 1, peer := 5, score := 8/10, stake_amount := 1, timestamp := 0 } : Bid),
             { job_id := 1, peer := 2, score := 9/10, stake_amount := 1, timestamp := 1 },
             { job_id := 1, peer := 4, score := 9/10, stake_amount := 1, timestamp := 2 }],
        b.score ≤ w.score ∧ (b.score = w.score → w.peer ≤ b.peer) :=
  selectWinner_max_lowest_peer _ (by simp)

/-- C2: while a peer's quarantine is active it never appears as the
AWARD target of an auction; and quarantine is triggered automatically
whenever the recomputed trust score drops below the fixed threshold,
lasting until now + cooldown_duration. -/
theorem quarantined_never_award_target (l : TrustLedger) (now : Nat)
    (p : Peer) (minStake : ℚ) (bids : List Bid)
    (h : is_quarantined l p now = true) :
    awardTarget l now minStake bids ≠ some p ∧
    (∀ (l' : TrustLedger) (p' : Peer) (k : EventKind) (j : JobId) (t : Nat),
      current_score (record_event l' p' k j t) p' < trustThreshold →
      ∀ u, u < t + cooldownDuration →
        is_quarantined (record_event l' p' k j t) p' u = true) := by
  constructor
  · intro hcontra
    rw [awardTarget] at hcontra
    cases hw : selectWinner (qualifyingBids l now minStake bids) with
    | none => rw [hw] at hcontra; cases hcontra
    | some w =>
      rw [hw] at hcontra
      simp only [Option.map, Option.some.injEq] at hcontra
      have hmem : w ∈ qualifyingBids l now minStake bids := by
        rcases foldl_pickBid_mem _ none w hw with h' | h'
        · cases h'
        · exact h'
      rw [qualifyingBids, List.mem_filter] at hmem
      have hq := hmem.2
      rw [Bool.and_eq_true, Bool.not_eq_true'] at hq
      rw [hcontra, h] at hq
      exact absurd hq.1 (by simp)
  · intro l' p' k j t hscore u hu
    have hl := lookupRecord_record_event_self l' p' k j t
    have hcs : current_score (record_event l' p' k j t) p'
        = clamp01 (current_score l' p' + delta k) := by
      rw [current_score, hl]
    rw [hcs] at hscore
    rw [is_quarantined, hl]
    simp only [if_pos hscore]
    exact decide_eq_true hu

/-- Witness for C2: a ledger holding one quarantined peer and a single
bid from that peer. -/
theorem quarantined_never_award_target_witness :
    awardTarget
        [(3, { score := 1/10, events := [], quarantine_until := some 100 })]
        50 0
        [{ job_id := 1, peer := 3, score := 9/10, stake_amount := 1, timestamp := 0 }]
      ≠ some 3 ∧
    (∀ (l' : TrustLedger) (p' : Peer) (k : EventKind) (j : JobId) (t : Nat),
      current_score (record_event l' p' k j t) p' < trustThreshold →
      ∀ u, u < t + cooldownDuration →
        is_quarantined (record_event l' p' k j t) p' u = true) :=
  quarantined_never_award_target
    [(3, { score := 1/10, events := [], quarantine_until := some 100 })]
    50 3 0
    [{ job_id := 1, peer := 3, score := 9/10, stake_amount := 1, timestamp := 0 }]
    (by decide)

/-! ## Claim C5 -/

theorem betterPeer_iff (e p q : Nat) :
    betterPeer e p q = true ↔
      (hashPE e p < hashPE e q ∨ (hashPE e p = hashPE e q ∧ p < q)) := by
  rw [betterPeer]
  simp

theorem minPeer_comm (e p q : Nat) : minPeer e p q = minPeer e q p := by
  rw [minPeer, minPeer]
  by_cases h1 : betterPeer e p q = true
  · by_cases h2 : betterPeer e q p = true
    · exfalso
      rw [betterPeer_iff] at h1 h2
      omega
    · rw [if_pos h1, if_neg h2]
  · by_cases h2 : betterPeer e q p = true
    · rw [if_neg h1, if_pos h2]
    · rw [if_neg h1, if_neg h2]
      rw [betterPeer_iff] at h1 h2
      exact Nat.le_antisymm (by omega) (by omega)

theorem minPeer_assoc (e p q r : Nat) :
    minPeer e (minPeer e p q) r = minPeer e p (minPeer e q r) := by
  unfold minPeer
  split_ifs <;>
    first
      | rfl
      | (simp only [betterPeer_iff] at *;
         exact Nat.le_antisymm (by omega) (by omega))

theorem pickPeer_swap (e : Nat) (acc : Option Peer) (x y : Peer) :
    pickPeer e (pickPeer e acc y) x = pickPeer e (pickPeer e acc x) y := by
  cases acc with
  | none =>
    show some (minPeer e y x) = some (minPeer e x y)
    rw [minPeer_comm]
  | some a =>
    show some (minPeer e (minPeer e a y) x) = some (minPeer e (minPeer e a x) y)
    rw [minPeer_assoc, minPeer_assoc, minPeer_comm e y x]

theorem foldl_pickPeer_perm (e : Nat) {l₁ l₂ : List Peer} (h : l₁.Perm l₂) :
    ∀ acc, l₁.foldl (pickPeer e) acc = l₂.foldl (pickPeer e) acc := by
  induction h with
  | nil => intro acc; rfl
  | cons x _ ih =>
    intro acc
    rw [List.foldl_cons, List.foldl_cons]
    exact ih _
  | swap x y l =>
    intro acc
    rw [List.foldl_cons, List.foldl_cons, List.foldl_cons, List.foldl_cons]
    rw [pickPeer_swap]
  | trans _ _ ih1 ih2 =>
    intro acc
    exact (ih1 acc).trans (ih2 acc)

/-- C5: elect(epoch, live_peers) is a pure, order-independent function
of the epoch and the live-peer identities: any two orderings of the
same live-peer set yield the same coordinator, so two peers sharing a
live-peer-set snapshot agree without communication. -/
theorem elect_order_independent (e : Nat) (l₁ l₂ : List Peer)
    (h : l₁.Perm l₂) : elect e l₁ = elect e l₂ := by
  rw [elect, elect]
  exact foldl_pickPeer_perm e h none

/-- Witness for C5: two orderings of the same three-peer set. -/
theorem elect_order_independent_witness : elect 0 [1, 2, 3] = elect 0 [3, 1, 2] :=
  elect_order_independent 0 [1, 2, 3] [3, 1, 2] (by decide)

/-! ## Claim C9 -/

/-- C9: the stored agent state changes only when the incoming message
body parses as JSON whose type field is the string initial_state or
state_update; a malformed message (parse failure) or an unrecognized
type leaves the stored state unchanged — dropped with no retry. -/
theorem onmessage_changes_only_on_state_types (st raw : Option Json) :
    onmessage st none = st ∧
    (onmessage st raw ≠ st →
      ∃ j t, raw = some j ∧ j.getField "type" = some (Json.str t) ∧
        (t = "initial_state" ∨ t = "state_update")) := by
  refine ⟨rfl, ?_⟩
  intro hne
  cases raw with
  | none => exact absurd rfl hne
  | some j =>
    cases hf : j.getField "type" with
    | none =>
      exfalso
      apply hne
      simp [onmessage, hf]
    | some v =>
      cases v with
      | str t =>
        by_cases ht : t = "initial_state" ∨ t = "state_update"
        · exact ⟨j, t, rfl, hf, ht⟩
        · exfalso
          apply hne
          push_neg at ht
          simp [onmessage, hf, ht.1, ht.2]
      | null =>
        exfalso
        apply hne
        simp [onmessage, hf]
      | bool b =>
        exfalso
        apply hne
        simp [onmessage, hf]
      | num x =>
        exfalso
        apply hne
        simp [onmessage, hf]
      | arr xs =>
        exfalso
        apply hne
        simp [onmessage, hf]
      | obj fs =>
        exfalso
        apply hne
        simp [onmessage, hf]

/-- Witness for C9: a state_update message replacing the stored state. -/
theorem onmessage_changes_only_on_state_types_witness :
    ∃ j t,
      (some (Json.obj [("type", Json.str "state_update"), ("data", Json.num 1)])
        : Option Json) = some j ∧
      j.getField "type" = some (Json.str t) ∧
      (t = "initial_state" ∨ t = "state_update") :=
  (onmessage_changes_only_on_state_types none
    (some (Json.obj [("type", Json.str "state_update"), ("data", Json.num 1)]))).2
    (by simp [onmessage, Json.getField])

/-! ## Claim C10 -/

theorem onclose_iterate_attempts (s : WSState) (n : Nat) :
    (onclose^[n] s).reconnectAttempts = s.reconnectAttempts + n := by
  induction n with
  | zero => rfl
  | succ k ih =>
    rw [Function.iterate_succ_apply']
    show (onclose^[k] s).reconnectAttempts + 1 = s.reconnectAttempts + (k + 1)
    omega

/-- C10: after the nth consecutive disconnect the hook has incremented
its attempt counter to n and scheduled reconnect attempt n+1 after
exactly min(3000 * 1.5^(n-1), 30000) milliseconds, and once 10 attempts
have failed, connect stops creating sockets and reports a connection
error instead of retrying forever. -/
theorem reconnect_backoff_and_cutoff (s : WSState) (n : Nat)
    (h0 : s.reconnectAttempts = 0) (hn : 1 ≤ n) :
    ((onclose^[n] s).reconnectAttempts = n ∧
     (onclose^[n] s).scheduledDelay =
       some (min (3000 * (3/2 : ℚ) ^ (n - 1)) 30000)) ∧
    ((connect (onclose^[10] s)).error =
       some "Failed to connect after multiple attempts. Please refresh the page." ∧
     (connect (onclose^[10] s)).connecting = false) := by
  have hat : ∀ m, (onclose^[m] s).reconnectAttempts = m := by
    intro m
    rw [onclose_iterate_attempts, h0, Nat.zero_add]
  have hcon : ∀ m, 1 ≤ m → (onclose^[m] s).connecting = false := by
    intro m hm
    obtain ⟨k, rfl⟩ : ∃ k, m = k + 1 := ⟨m - 1, by omega⟩
    rw [Function.iterate_succ_apply']
    rfl
  refine ⟨⟨hat n, ?_⟩, ?_⟩
  · obtain ⟨k, rfl⟩ : ∃ k, n = k + 1 := ⟨n - 1, by omega⟩
    rw [Function.iterate_succ_apply']
    show some (min (RECONNECT_DELAY * (3/2 : ℚ) ^
      (((onclose^[k] s).reconnectAttempts + 1) - 1)) 30000) = _
    rw [hat k]
    rfl
  · rw [connect, if_neg (by rw [hcon 10 (by norm_num)]; exact Bool.false_ne_true),
      if_pos (by rw [hat 10]; norm_num [MAX_RECONNECT_ATTEMPTS])]
    exact ⟨rfl, hcon 10 (by norm_num)⟩

/-- Witness for C10: the third consecutive disconnect from a freshly
connected hook schedules a 6750 ms backoff, and the post-cutoff connect
reports the error. -/
theorem reconnect_backoff_and_cutoff_witness :
    ((onclose^[3] connectedWSState).reconnectAttempts = 3 ∧
     (onclose^[3] connectedWSState).scheduledDelay =
       some (min (3000 * (3/2 : ℚ) ^ (3 - 1)) 30000)) ∧
    ((connect (onclose^[10] connectedWSState)).error =
       some "Failed to connect after multiple attempts. Please refresh the page." ∧
     (connect (onclose^[10] connectedWSState)).connecting = false) :=
  reconnect_backoff_and_cutoff connectedWSState 3 rfl (by norm_num)

/-! ## Claim C1 -/

theorem swarmStep_inv {s s' : SwarmState} (h : SwarmStep s s')
    (hi : SwarmInv s) : SwarmInv s' := by
  obtain ⟨h1, h2, h3⟩ := hi
  cases h with
  | announce j hj =>
    refine ⟨?_, h2, h3⟩
    have hoj : openJobs { s with auctions := ⟨j, Phase.announced⟩ :: s.auctions }
        = j :: openJobs s := by
      rw [openJobs, openJobs]
      rw [List.filter_cons]
      simp [Phase.isOpen]
    rw [hoj]
    exact List.nodup_cons.mpr ⟨hj, h1⟩
  | advancePhase l₁ l₂ a ph hs hph =>
    refine ⟨?_, h2, h3⟩
    rw [openJobs] at h1 ⊢
    rw [hs] at h1
    rw [List.filter_append, List.filter_cons, List.map_append] at h1 ⊢
    dsimp only at h1 ⊢
    by_cases hop : ph.isOpen = true
    · rw [if_pos hop] at *
      rw [if_pos (hph hop)] at h1
      simpa using h1
    · rw [if_neg hop]
      cases hao : a.phase.isOpen with
      | true =>
        rw [if_pos hao] at h1
        rw [List.map_cons] at h1
        exact h1.sublist ((List.sublist_cons_self a.job_id
          ((l₂.filter (fun x : Auction => x.phase.isOpen)).map
            (fun x : Auction => x.job_id))).append_left _)
      | false =>
        rw [if_neg (by rw [hao]; exact Bool.false_ne_true)] at h1
        exact h1
  | issueAward j w c hc hw =>
    refine ⟨h1, ?_, h3⟩
    intro m hm hel
    rcases List.mem_cons.mp hm with rfl | hm'
    · exact ⟨w, hw, rfl⟩
    · exact h2 m hm' hel
  | staleIssue j e w c hc =>
    refine ⟨h1, ?_, h3⟩
    intro m hm hel
    rcases List.mem_cons.mp hm with rfl | hm'
    · exact absurd hel hc
    · exact h2 m hm' hel
  | duplicate m hm =>
    refine ⟨h1, ?_, h3⟩
    intro m' hm' hel
    rcases List.mem_cons.mp hm' with rfl | hm'' 
    · exact h2 m' hm hel
    · exact h2 m' hm'' hel
  | deliver m hm hacc =>
    refine ⟨h1, h2, ?_⟩
    intro p j hp
    by_cases hc : p = m.winner ∧ j = m.job_id
    · obtain ⟨rfl, rfl⟩ := hc
      obtain ⟨b, hb, hbw⟩ := h2 m hm hacc
      exact ⟨b, hb, hbw⟩
    · dsimp only at hp
      rw [if_neg hc] at hp
      exact h3 p j hp
  | dropMsg m hm hacc =>
    exact ⟨h1, h2, h3⟩

/-- C1: over every reachable state of the message-delivery model — any
interleaving of announcements, award issuance (including by stale
coordinators), duplication and delivery — at most one peer holds an
active Awarded state for a given job id, and the open auctions carry
pairwise distinct job ids (at most one Auction per job id is open). -/
theorem no_double_award (e : Nat) (live : List Peer)
    (bids : JobId → List Bid) (s : SwarmState)
    (h : SwarmReach (initSwarm e live bids) s) :
    (∀ j p q, s.holding p j = true → s.holding q j = true → p = q) ∧
    (openJobs s).Nodup := by
  have hinv : SwarmInv s := by
    rw [SwarmReach] at h
    induction h with
    | refl =>
      refine ⟨?_, ?_, ?_⟩
      · rw [openJobs]
        exact List.nodup_nil
      · intro m hm
        exact absurd hm (List.not_mem_nil m)
      · intro p j hp
        exact absurd hp (by rw [initSwarm]; exact Bool.false_ne_true)
    | tail _ hbc ih => exact swarmStep_inv hbc ih
  obtain ⟨h1, _, h3⟩ := hinv
  refine ⟨?_, h1⟩
  intro j p q hp hq
  obtain ⟨b, hb, hbp⟩ := h3 p j hp
  obtain ⟨b', hb', hbq⟩ := h3 q j hq
  rw [hb] at hb'
  injection hb' with hbb
  rw [← hbp, ← hbq, hbb]

/-- Witness for C1: the initial state of a three-peer epoch. -/
theorem no_double_award_witness :
    (∀ j p q, (initSwarm 0 [1, 2, 3] (fun _ => [])).holding p j = true →
      (initSwarm 0 [1, 2, 3] (fun _ => [])).holding q j = true → p = q) ∧
    (openJobs (initSwarm 0 [1, 2, 3] (fun _ => []))).Nodup :=
  no_double_award 0 [1, 2, 3] (fun _ => [])
    (initSwarm 0 [1, 2, 3] (fun _ => [])) Relation.ReflTransGen.refl
